import Mathlib

/-!
Verification development for the `cleast` library (CLingo Enriched AST).

The definitions below are a shallow embedding of the Python sources
`cleast/astline.py`, `cleast/cleast.py`, `cleast/comment.py` and
`cleast/variable.py`.  Python sets are modelled as duplicate-free lists,
Python `dict`s as association lists with replace-on-insert, Python machine
strings as Lean `String`s, and Python exceptions as `Except PyError`.
The modules `symbol.py`, `directive.py` and `utils.py` are not part of the
provided sources; the data their classes carry (`Symbol'`, `Directive`) is
modelled from the specification, as marked on each such definition.
-/

/-- A parser source position: `clingo.ast.Position(filename, line, column)`.
Line/column numbers are Python ints, modelled as `Int`. -/
structure Position where
  filename : String
  line : Int
  column : Int
deriving DecidableEq, Repr

/-- A parser source range: `clingo.ast.Location(begin, end)`.  The `end`
field is named `stop` because `end` is reserved in Lean. -/
structure Location where
  begin : Position
  stop : Position
deriving DecidableEq, Repr

/-- The subset of `clingo.ast.ASTType` node tags that the library inspects,
plus a few further tags used to build example trees. -/
inductive ASTType where
  | Rule | Literal | SymbolicAtom | ConditionalLiteral | Defined | Definition
  | ShowSignature | ShowTerm | Variable | Function | SymbolicTerm | BodyAggregate
  | Comparison | Program
deriving DecidableEq, Repr

/-- The term sitting under a `SymbolicAtom` node: `cleast.py  get_symbol`
reads `ast.symbol.name` and `ast.symbol.location` from it. -/
structure SymbolTerm where
  name : String
  location : Location
deriving DecidableEq, Repr

mutual
/-- A `clingo.ast.AST` node: a tag, a location, the named structural child
fields (`child_keys` with their `getattr` values), and the extra attributes
the library reads on specific node kinds: `symbol` on a `SymbolicAtom`,
`name`/`arity` on `Defined`/`Definition`/`ShowSignature` nodes, and
`term`/`arguments` on `ShowTerm` nodes (`term` modelled as its name paired
with its argument count, `args_len` as `len(ast.arguments)`). -/
inductive AST where
  | mk (ast_type : ASTType) (location : Location) (symbol : Option SymbolTerm)
       (name : String) (arity : Int) (term : Option (String × Nat)) (args_len : Nat)
       (children : ChildList)
/-- The `child_keys` of a node together with their `getattr` values. -/
inductive ChildList where
  | nil
  | cons (key : String) (val : ChildVal) (rest : ChildList)
/-- A `getattr(ast, child)` result: `None`, a single `AST`, or an
`ASTSequence`. -/
inductive ChildVal where
  | null
  | one (a : AST)
  | seq (l : ASTSeq)
/-- A `clingo.ast.ASTSequence`. -/
inductive ASTSeq where
  | nil
  | cons (a : AST) (rest : ASTSeq)
end

/-- `ast.ast_type`. -/
def AST.ast_type : AST → ASTType
  | .mk t _ _ _ _ _ _ _ => t

/-- `ast.location`. -/
def AST.location : AST → Location
  | .mk _ l _ _ _ _ _ _ => l

/-- `ast.symbol` (present on `SymbolicAtom` nodes). -/
def AST.symbol : AST → Option SymbolTerm
  | .mk _ _ s _ _ _ _ _ => s

/-- `ast.name`. -/
def AST.name : AST → String
  | .mk _ _ _ n _ _ _ _ => n

/-- `ast.arity`. -/
def AST.arity : AST → Int
  | .mk _ _ _ _ a _ _ _ => a

/-- `ast.term`, as (term name, `len(term.arguments)`); `none` when the node
has no `term` key (so `"term" in ast.keys()` is modelled by `isSome`). -/
def AST.term : AST → Option (String × Nat)
  | .mk _ _ _ _ _ t _ _ => t

/-- `len(ast.arguments)`. -/
def AST.args_len : AST → Nat
  | .mk _ _ _ _ _ _ k _ => k

/-- `ast.child_keys` with their values. -/
def AST.children : AST → ChildList
  | .mk _ _ _ _ _ _ _ c => c

/-- Modelled from the spec: an AtomicReference (class `Symbol'` of the
missing module `symbol.py`).  It is "a reference to an atomic proposition
at a location; identified for indexing purposes by
`(name, location.begin.line, location.begin.col)`" and "carries a
signature (name + arity)"; the detached placeholder built by
`Symbol'(ast, None)` has no signature (`signature = none`). -/
structure Symbol' where
  name : String
  location : Location
  signature : Option (String × Nat)
deriving DecidableEq, Repr

/-- Modelled from the spec: a structured directive record (class
`Directive` of the missing module `directive.py`): "a `line_number`, a kind
tag (e.g., "section", "predicate", "var"), and a sequence of parameters". -/
structure Directive where
  line_number : Int
  kind : String
  parameters : List String
deriving DecidableEq, Repr

/-- `comment.py`: a comment span with its location, the multi-line flag and
its free text content. -/
structure Comment where
  location : Location
  large_comment : Bool
  content : String
deriving DecidableEq, Repr

/-- `variable.py`: a variable occurrence (name, location, optionally the
directive matched by the variable's name). -/
structure Variable where
  name : String
  location : Location
  directive : Option Directive
deriving DecidableEq, Repr

/-- The enumeration `ASTLineType` of `astline.py`. -/
inductive ASTLineType where
  | Rule | Constraint | Fact | Definition | Input | Constant | Output
deriving DecidableEq, Repr

/-- The entries pushed on the resolver's position trace: `trace` holds both
plain strings (`"ASTSequence"` and child key names such as `"head"`,
`"body"`, `"condition"`) and `ASTType` tags. -/
inductive TraceElem where
  | str (s : String)
  | ty (t : ASTType)
deriving DecidableEq, Repr

/-- A raised Python exception. -/
inductive PyError where
  | attributeError (attr : String)
deriving DecidableEq, Repr

/-- Python truthiness of a string constant: non-empty strings are truthy.
Needed because `deep_search_sym_dep` writes `elif "body":` (a test on the
constant string itself, astline.py line 128). -/
def py_truthy_str (s : String) : Bool :=
  s ≠ ""

/-- Python truthiness of a `getattr` child value (`if a:` in the walkers):
`None` and an empty `ASTSequence` are falsy, everything else truthy. -/
def child_truthy : ChildVal → Bool
  | .null => false
  | .one _ => true
  | .seq .nil => false
  | .seq (.cons _ _) => true

/-- `set.add` on the list model of a Python set: no duplicates. -/
def py_set_add (l : List Symbol') (s : Symbol') : List Symbol' :=
  if s ∈ l then l else l ++ [s]

/-- The key type of `Cleast.symbol_dict`: `(name, begin.line, begin.column)`. -/
abbrev SymKey := String × Int × Int

/-- The association-list model of the Python dict `Cleast.symbol_dict`. -/
abbrev SymbolDict := List (SymKey × Symbol')

/-- Python `dict.__setitem__`: replace the binding if the key is present,
append it otherwise. -/
def dict_insert (d : SymbolDict) (k : SymKey) (v : Symbol') : SymbolDict :=
  match d with
  | [] => [(k, v)]
  | (k', v') :: rest => if k' = k then (k, v) :: rest else (k', v') :: dict_insert rest k v

/-- Python `dict.get(key)` (keys are unique by construction, so the first
match is the binding). -/
def dict_find (d : SymbolDict) (k : SymKey) : Option Symbol' :=
  match d with
  | [] => none
  | (k', v') :: rest => if k' = k then some v' else dict_find rest k

/-- cleast.py lines 56-63: the loop populating `self.symbol_dict` over
`self.symbols`, keyed by `(name, begin.line, begin.column)`. -/
def build_symbol_dict (symbols : List Symbol') : SymbolDict :=
  symbols.foldl
    (fun d s => dict_insert d (s.name, s.location.begin.line, s.location.begin.column) s) []

/-- The dict `self.directives` returned by `Directive.extract_directives`
(missing module): kind tag (`"section"`, `"predicates"`, `"var"`) to the
directives of that kind, modelled as an association list. -/
abbrev DirectiveDict := List (String × List Directive)

/-- Python `dict.get(key)` on a `DirectiveDict`. -/
def dir_dict_get (d : DirectiveDict) (k : String) : Option (List Directive) :=
  match d with
  | [] => none
  | (k', v') :: rest => if k' = k then some v' else dir_dict_get rest k

/-- One insertion step of the stable sort modelling Python `sorted` with
`key=lambda directive: directive.line_number` (cleast.py lines 66-71). -/
def sorted_insert (d : Directive) : List Directive → List Directive
  | [] => [d]
  | x :: xs => if d.line_number < x.line_number then d :: x :: xs else x :: sorted_insert d xs

/-- Stable insertion sort by `line_number`, modelling Python `sorted`. -/
def py_sorted : List Directive → List Directive
  | [] => []
  | x :: xs => sorted_insert x (py_sorted xs)

/-- Recursion core of `py_replace`, with fuel (one unit per consumed input
character, so `l.length` units suffice). -/
def replace_go (pat rep : List Char) : Nat → List Char → List Char
  | 0, l => l
  | _ + 1, [] => []
  | fuel + 1, c :: rest =>
    if pat ≠ [] ∧ pat.isPrefixOf (c :: rest) then
      rep ++ replace_go pat rep fuel (List.drop pat.length (c :: rest))
    else
      c :: replace_go pat rep fuel rest

/-- Python `str.replace(pat, rep)` (all occurrences, left to right) for a
non-empty pattern; every call site of the library uses a non-empty pattern
(`src_dir` of an actual file, `"/"`, `".lp"`).  On the empty pattern this
returns the string unchanged. -/
def py_replace (s pat rep : String) : String :=
  String.mk (replace_go pat.toList rep.toList s.toList.length s.toList)

/-- Python `str[1:]`: drop the first character. -/
def py_drop1 (s : String) : String :=
  String.mk (s.toList.drop 1)

/-- astline.py lines 90-94: the `prefix` attribute derived from the owning
file path: strip `src_dir`, drop the leading separator, turn `/` into `.`,
strip `.lp`, append a trailing dot. -/
def dotted_pfx (loc : Location) (src_dir : String) : String :=
  let p := py_drop1 (py_replace loc.begin.filename src_dir "")
  let p := py_replace p "/" "."
  let p := py_replace p ".lp" ""
  p ++ "."

/-- Modelled from the spec: `str(signature)` where a signature prints as
`name/arity` ("string form of one signature from `defines` (name/arity)",
class `Symbol'` of the missing module `symbol.py`); Python prints the
missing signature `None` of a detached reference as `"None"`. -/
def sig_str : Option (String × Nat) → String
  | some (n, a) => n ++ "/" ++ Nat.repr a
  | none => "None"

/-- `list(define)[0].signature` as a string (astline.py lines 172 and 194);
the factory only reaches this with a non-empty `define`, so the
`IndexError` Python would raise on `[]` is kept as an inert marker. -/
def first_signature_str (define : List Symbol') : String :=
  match define with
  | d :: _ => sig_str d.signature
  | [] => "IndexError"

/-- cleast.py lines 125-138, `Cleast.get_symbol`: look the atom's
`(symbol.name, symbol.location.begin.line, symbol.location.begin.column)`
key up in `self.symbol_dict`, falling back to the detached
`Symbol'(ast, None)` (a `Symbol'` with the atom's name and location and no
signature).  The argument `st` is the `ast.symbol` term of the
`SymbolicAtom` node the method receives. -/
def get_symbol (symbol_dict : SymbolDict) (st : SymbolTerm) : Symbol' :=
  match dict_find symbol_dict (st.name, st.location.begin.line, st.location.begin.column) with
  | some s => s
  | none => { name := st.name, location := st.location, signature := none }

mutual
/-- astline.py lines 110-141, `deep_search_sym_dep` on an `AST` argument:
push `ast.ast_type` on the trace; on a `SymbolicAtom`, classify the
resolved reference by the trace — `if "head" in trace:` then (dependency
when additionally `ASTType.ConditionalLiteral in trace` and
`"condition" in trace`, else defines), `elif "body":` (the truthiness of
the constant string, line 128) then dependency, else defines; on any other
node, recurse into every truthy child field pushing the key.  The mutated
set pair `(sym, dep)` is returned. -/
def deep_search_sym_dep (sd : SymbolDict) (a : AST) (sym dep : List Symbol')
    (trace : List TraceElem) : List Symbol' × List Symbol' :=
  match a with
  | .mk ty _ symb _ _ _ _ children =>
    let trace' := trace ++ [TraceElem.ty ty]
    if ty = ASTType.SymbolicAtom then
      match symb with
      | some st =>
        let s := get_symbol sd st
        if TraceElem.str "head" ∈ trace' then
          if TraceElem.str "head" ∈ trace' ∧ TraceElem.ty ASTType.ConditionalLiteral ∈ trace'
              ∧ TraceElem.str "condition" ∈ trace' then
            (sym, py_set_add dep s)
          else
            (py_set_add sym s, dep)
        else if py_truthy_str "body" then
          (sym, py_set_add dep s)
        else
          (py_set_add sym s, dep)
      | none => (sym, dep)
    else
      deep_search_children sd children sym dep trace'

/-- The `for child in ast.child_keys:` loop of `deep_search_sym_dep`
(astline.py lines 133-139): recurse into each truthy child value with the
key pushed on the trace. -/
def deep_search_children (sd : SymbolDict) (cl : ChildList) (sym dep : List Symbol')
    (trace : List TraceElem) : List Symbol' × List Symbol' :=
  match cl with
  | .nil => (sym, dep)
  | .cons key val rest =>
    let p :=
      if child_truthy val then deep_search_child sd val sym dep (trace ++ [TraceElem.str key])
      else (sym, dep)
    deep_search_children sd rest p.1 p.2 trace

/-- Dispatch of `deep_search_sym_dep` on a child value: an `ASTSequence`
argument pushes `"ASTSequence"` and recurses into its elements
(astline.py lines 111-115). -/
def deep_search_child (sd : SymbolDict) (v : ChildVal) (sym dep : List Symbol')
    (trace : List TraceElem) : List Symbol' × List Symbol' :=
  match v with
  | .null => (sym, dep)
  | .one a => deep_search_sym_dep sd a sym dep trace
  | .seq l => deep_search_seq sd l sym dep (trace ++ [TraceElem.str "ASTSequence"])

/-- The `for _ast in ast:` loop over an `ASTSequence`. -/
def deep_search_seq (sd : SymbolDict) (l : ASTSeq) (sym dep : List Symbol')
    (trace : List TraceElem) : List Symbol' × List Symbol' :=
  match l with
  | .nil => (sym, dep)
  | .cons a rest =>
    let p := deep_search_sym_dep sd a sym dep trace
    deep_search_seq sd rest p.1 p.2 trace
end

/-- astline.py lines 24-46 plus the subclass payloads: an `ASTLine` with
its underlying node, the define/dependency sets, and the metadata the
factory fills in (`section` is named `sec` and `prefix` is named `pfx`
because both words are reserved in Lean; `id` is the per-instance counter
value a `Constraint` stores, absent on every other kind). -/
structure ASTLine where
  ast : AST
  define : List Symbol'
  dependencies : List Symbol'
  comments : Option (List Comment)
  location : Location
  sec : Option Directive
  id : Option Nat
  identifier : String
  pfx : String
  type : ASTLineType

/-- Shared base construction `ASTLine.__init__` specialised by a subclass:
location from the node, no section/comments/prefix yet. -/
def mk_line (ast : AST) (define dependencies : List Symbol') (ty : ASTLineType)
    (identifier : String) (id : Option Nat) : ASTLine :=
  { ast := ast, define := define, dependencies := dependencies, comments := none,
    location := AST.location ast, sec := none, id := id, identifier := identifier,
    pfx := "", type := ty }

/-- astline.py lines 166-172, class `Rule`:
`identifier = str(list(define)[0].signature)`. -/
def mk_rule_line (ast : AST) (define dependencies : List Symbol') : ASTLine :=
  mk_line ast define dependencies ASTLineType.Rule (first_signature_str define) none

/-- astline.py lines 188-194, class `Fact`:
`identifier = str(list(define)[0].signature)`. -/
def mk_fact_line (ast : AST) (define dependencies : List Symbol') : ASTLine :=
  mk_line ast define dependencies ASTLineType.Fact (first_signature_str define) none

/-- astline.py lines 175-185, class `Constraint`: `self.id = Constraint.id`
then `Constraint.id += 1`; the process-wide class counter is threaded as
`cnt` in / incremented counter out.  `identifier = f"Constraint#{self.id}"`. -/
def mk_constraint_line (cnt : Nat) (ast : AST) (define dependencies : List Symbol') :
    ASTLine × Nat :=
  (mk_line ast define dependencies ASTLineType.Constraint ("Constraint#" ++ Nat.repr cnt)
    (some cnt), cnt + 1)

/-- astline.py lines 197-203, class `Definition`: `identifier = f"{ast.name}"`. -/
def mk_definition_line (ast : AST) (define dependencies : List Symbol') : ASTLine :=
  mk_line ast define dependencies ASTLineType.Definition (AST.name ast) none

/-- astline.py lines 206-212, class `Input`:
`identifier = f"{ast.name}/{ast.arity}"`. -/
def mk_input_line (ast : AST) (define dependencies : List Symbol') : ASTLine :=
  mk_line ast define dependencies ASTLineType.Input
    (AST.name ast ++ "/" ++ Int.repr (AST.arity ast)) none

/-- astline.py lines 215-224, class `Output`: when the node has a `term`
key, `f"{ast.term.name}/{len(ast.term.arguments)}"`, else
`f"{ast.name}/{len(ast.arguments)}"`. -/
def mk_output_line (ast : AST) (define dependencies : List Symbol') : ASTLine :=
  mk_line ast define dependencies ASTLineType.Output
    (match AST.term ast with
     | some (n, k) => n ++ "/" ++ Nat.repr k
     | none => AST.name ast ++ "/" ++ Nat.repr (AST.args_len ast)) none

/-- astline.py lines 48-96, `ASTLine.factory`: dispatch on
`ast.ast_type` — a `Rule` node becomes `Rule`/`Fact`/`Constraint` by the
truthiness of the two sets (both empty prints "Problem" and yields no
line); `Defined` becomes `Input`, `Definition` becomes `Definition`,
`ShowSignature`/`ShowTerm` become `Output`; anything else is reported and
yielded as no line.  When a line was built, its `section`, `comments` and
`prefix` attributes are filled in (lines 87-94).  The `Constraint` class
counter is threaded as `cnt`. -/
def ASTLine.factory (cnt : Nat) (ast : AST) (define dependencies : List Symbol')
    (sec : Option Directive) (comments : Option (List Comment)) (src_dir : String) :
    Option ASTLine × Nat :=
  let retc : Option ASTLine × Nat :=
    if AST.ast_type ast = ASTType.Rule then
      match define, dependencies with
      | _ :: _, _ :: _ => (some (mk_rule_line ast define dependencies), cnt)
      | _ :: _, [] => (some (mk_fact_line ast define dependencies), cnt)
      | [], _ :: _ =>
        let rc := mk_constraint_line cnt ast define dependencies
        (some rc.1, rc.2)
      | [], [] => (none, cnt)
    else if AST.ast_type ast = ASTType.Defined then
      (some (mk_input_line ast define dependencies), cnt)
    else if AST.ast_type ast = ASTType.Definition then
      (some (mk_definition_line ast define dependencies), cnt)
    else if AST.ast_type ast = ASTType.ShowSignature ∨ AST.ast_type ast = ASTType.ShowTerm then
      (some (mk_output_line ast define dependencies), cnt)
    else
      (none, cnt)
  match retc with
  | (some r, cnt') =>
    (some { r with sec := sec, comments := comments, pfx := dotted_pfx r.location src_dir }, cnt')
  | (none, cnt') => (none, cnt')

/-- One process-wide sequence of `ASTLine.factory` calls, threading the
`Constraint` class counter through all of them in construction order. -/
structure FactoryCall where
  ast : AST
  define : List Symbol'
  dependencies : List Symbol'
  sec : Option Directive
  comments : Option (List Comment)
  src_dir : String

/-- Run a list of factory calls in order from counter value `cnt`,
collecting each produced line (or `none`). -/
def factory_run (cnt : Nat) (calls : List FactoryCall) : List (Option ASTLine) × Nat :=
  match calls with
  | [] => ([], cnt)
  | f :: rest =>
    let oc := ASTLine.factory cnt f.ast f.define f.dependencies f.sec f.comments f.src_dir
    let tail := factory_run oc.2 rest
    (oc.1 :: tail.1, tail.2)

/-- The `Constraint` lines among the outcomes of a run, in construction
order. -/
def constraints_of (l : List (Option ASTLine)) : List ASTLine :=
  (l.filterMap (fun o => o)).filter (fun a => a.type == ASTLineType.Constraint)

/-- The attribute names the `Cleast` class body defines (cleast.py):
`get_section` is *not* among them — the class only defines `get_sections`. -/
def cleast_class_attrs : List String :=
  ["from_file", "get_comments", "get_sections", "get_symbol", "get_line", "get_ast_lines"]

/-- cleast.py line 46: the value of `self.symbol_dict` at the moment
`ASTLine.build_ast_lines` runs (line 52).  The dict is only populated
afterwards, at lines 56-63. -/
def symbol_dict_at_build : SymbolDict := []

/-- astline.py lines 98-163, `ASTLine.build_ast_lines`: for each node the
loop first runs `deep_search_sym_dep(ast, set(), set(), [])` and then
evaluates the factory arguments, the first of which is
`cleast.get_section(ast)` (line 152).  The `Cleast` class defines no
attribute named `get_section` (see `cleast_class_attrs`; the method is
called `get_sections`), so Python raises `AttributeError` there — on every
iteration, before `ASTLine.factory` can run.  The continuation of the loop
body is therefore unreachable for every node and the whole build fails on
the first node; the factory itself is modelled separately as
`ASTLine.factory`. -/
def build_ast_lines (symbol_dict : SymbolDict) (ast_list : List AST) :
    Except PyError (List ASTLine × List ASTLine) :=
  match ast_list with
  | [] => .ok ([], [])
  | ast :: _ =>
    let _syms_deps := deep_search_sym_dep symbol_dict ast [] [] []
    .error (PyError.attributeError "get_section")

/-- cleast.py lines 15-71, the `Cleast` model state after construction. -/
structure Cleast where
  file : List String
  filename : String
  src_dir : String
  directives : DirectiveDict
  comments : List Comment
  symbols : List Symbol'
  symbol_dict : SymbolDict
  vars : List Variable
  ast_lines : List ASTLine
  external_ast_lines : List ASTLine
  sorted_sections : List Directive

/-- cleast.py lines 26-71, `Cleast.__init__`.  The extraction passes
(`Directive.extract_directives`, `Comment.extract_comments`,
`Symbol'.extract_symbols`, `Variable.extract_variables`) are pure producers
of the `directives`/`comments`/`symbols`/`vars` collections and are
taken here as inputs.  The construction order is the source's:
`self.symbol_dict = {}` (line 46), then `ASTLine.build_ast_lines` (line 52,
run against that still-empty dict, and raising `AttributeError` for any
non-empty node list), and only then the dict population (lines 56-63) and
the section pre-sort (lines 66-71). -/
def Cleast.init (ast_list : List AST) (file : List String) (filename : String)
    (src_dir : String) (directives : DirectiveDict) (comments : List Comment)
    (symbols : List Symbol') (vars : List Variable) : Except PyError Cleast :=
  match build_ast_lines symbol_dict_at_build ast_list with
  | .error e => .error e
  | .ok lines =>
    .ok { file := file, filename := filename, src_dir := src_dir, directives := directives,
          comments := comments, symbols := symbols,
          symbol_dict := build_symbol_dict symbols, vars := vars,
          ast_lines := lines.1, external_ast_lines := lines.2,
          sorted_sections :=
            match dir_dict_get directives "section" with
            | some secs => py_sorted secs
            | none => [] }

/-- cleast.py lines 107-123, the loop of `Cleast.get_sections`: walk the
pre-sorted sections, remembering each whose `line_number` is below the
bound, and stop at the first that is not. -/
def get_sections_loop (sorted : List Directive) (line : Int) (current : Option Directive) :
    Option Directive :=
  match sorted with
  | [] => current
  | s :: rest => if s.line_number < line then get_sections_loop rest line (some s) else current

/-- cleast.py lines 107-123, `Cleast.get_sections`: the bound is
`obj.location.begin.line - 1`. -/
def get_sections (sorted_sections : List Directive) (loc : Location) : Option Directive :=
  get_sections_loop sorted_sections (loc.begin.line - 1) none

/-- The heterogeneous contents of the `all_elem` list of `Cleast.get_line`
(cleast.py lines 148-153): `all_elem.extend(self.directives)` iterates the
*dict*, contributing its string keys; the other three extends contribute
comments, vars and AST lines. -/
inductive LineElem where
  | dict_key (s : String)
  | comment (c : Comment)
  | var (v : Variable)
  | astline (l : ASTLine)

/-- What `Cleast.get_line` actually appends on a match: `ret.append(ret)`
(cleast.py line 157) appends the accumulator list *itself*, so every entry
of the returned Python list is a self-reference to that list — never one of
the matched elements.  The pure model tags each such entry `self_ref`. -/
inductive GetLineEntry where
  | self_ref
deriving DecidableEq, Repr

/-- `elem.location` inside the `get_line` loop: a string (a dict key from
`self.directives`) has no `location` attribute, so Python raises
`AttributeError`. -/
def line_elem_location : LineElem → Except PyError Location
  | .dict_key _ => .error (PyError.attributeError "location")
  | .comment c => .ok c.location
  | .var v => .ok v.location
  | .astline l => .ok l.location

/-- The `for elem in all_elem:` loop of `Cleast.get_line` (cleast.py lines
155-157): match when the element begins at `line` or at `line + 1`
(`elem.location.begin.line - 1 == line`), and append `ret` to itself. -/
def get_line_loop (elems : List LineElem) (line : Int) (ret : List GetLineEntry) :
    Except PyError (List GetLineEntry) :=
  match elems with
  | [] => .ok ret
  | e :: rest =>
    match line_elem_location e with
    | .error err => .error err
    | .ok loc =>
      if loc.begin.line = line ∨ loc.begin.line - 1 = line then
        get_line_loop rest line (ret ++ [GetLineEntry.self_ref])
      else
        get_line_loop rest line ret

/-- cleast.py lines 141-158, `Cleast.get_line`. -/
def Cleast.get_line (c : Cleast) (line : Int) : Except PyError (List GetLineEntry) :=
  let all_elem :=
    (c.directives.map (fun kv => LineElem.dict_key kv.1))
      ++ c.comments.map LineElem.comment
      ++ c.vars.map LineElem.var
      ++ c.ast_lines.map LineElem.astline
  get_line_loop all_elem line []

/-- cleast.py lines 160-168, `Cleast.get_ast_lines`: copy the local lines
(`self.ast_lines.copy()` — so the extend below writes to the copy, not to
the model), extend with the external lines unless `local`, filter by kind
when one is given.  The second component is the model state after the call:
the method assigns to no attribute of `self`, so it is returned unchanged. -/
def Cleast.get_ast_lines (c : Cleast) (kind : Option ASTLineType) (only_local : Bool) :
    List ASTLine × Cleast :=
  let all_ast := c.ast_lines
  let all_ast := if !only_local then all_ast ++ c.external_ast_lines else all_ast
  match kind with
  | some k => (all_ast.filter (fun l => l.type == k), c)
  | none => (all_ast, c)

/-- A sample location inside the file `src/a.lp`. -/
def loc_p : Location := ⟨⟨"src/a.lp", 1, 1⟩, ⟨"src/a.lp", 1, 5⟩⟩

/-- The symbol term of a sample atom `p(..)` at `loc_p`. -/
def st_p : SymbolTerm := ⟨"p", loc_p⟩

/-- A sample `SymbolicAtom` node for `p`. -/
def atom_p : AST := AST.mk ASTType.SymbolicAtom loc_p (some st_p) "" 0 none 0 ChildList.nil

/-- The canonical extracted reference for `p` at `loc_p`, carrying the
signature `p/1`. -/
def canonical_p : Symbol' := ⟨"p", loc_p, some ("p", 1)⟩

/-- The detached placeholder `Symbol'(ast, None)` for the same atom: same
name and location, no signature. -/
def placeholder_p : Symbol' := ⟨"p", loc_p, none⟩

/-- A sample rule-shaped statement node whose head holds `atom_p` and whose
body is empty (the fact `p(..).`). -/
def fact_ast : AST :=
  AST.mk ASTType.Rule loc_p none "" 0 none 0
    (ChildList.cons "head" (ChildVal.one atom_p)
      (ChildList.cons "body" ChildVal.null ChildList.nil))

/-- A rule-shaped node with no reachable references at all: both the
define and the dependency set of `deep_search_sym_dep` stay empty, so the
factory classifies it as nothing ("Problem"). -/
def unclass_ast : AST :=
  AST.mk ASTType.Rule loc_p none "" 0 none 0
    (ChildList.cons "head" ChildVal.null
      (ChildList.cons "body" ChildVal.null ChildList.nil))

/-- The statement the factory builds from `fact_ast` with
`define = [canonical_p]` and no dependencies: a `Fact` with identifier
`"p/1"` and prefix `"a."` (from `src/a.lp` under source root `src`). -/
def fact_line_ex : ASTLine :=
  { ast := fact_ast, define := [canonical_p], dependencies := [], comments := none,
    location := loc_p, sec := none, id := none, identifier := "p/1", pfx := "a.",
    type := ASTLineType.Fact }

/-- A factory call for a constraint statement (rule-shaped node, empty
define set, non-empty dependency set). -/
def c6_call : FactoryCall :=
  { ast := AST.mk ASTType.Rule loc_p none "" 0 none 0 ChildList.nil,
    define := [], dependencies := [canonical_p], sec := none, comments := none,
    src_dir := "src" }

/-- A section directive at line 5. -/
def d5 : Directive := ⟨5, "section", []⟩

/-- A section directive at line 20. -/
def d20 : Directive := ⟨20, "section", []⟩

/-- A location beginning at line 22. -/
def loc22 : Location := ⟨⟨"f.lp", 22, 1⟩, ⟨"f.lp", 22, 2⟩⟩

/-- A location beginning at line 3. -/
def loc3 : Location := ⟨⟨"f.lp", 3, 1⟩, ⟨"f.lp", 3, 2⟩⟩

/-- A comment beginning at line 3. -/
def comment3 : Comment := ⟨⟨⟨"f.lp", 3, 1⟩, ⟨"f.lp", 3, 10⟩⟩, false, "a comment"⟩

/-- A model with one comment at line 3 and no directives, as built by
`Cleast.init` on an empty node list. -/
def c8_model : Cleast :=
  { file := [], filename := "f.lp", src_dir := ".", directives := [], comments := [comment3],
    symbols := [], symbol_dict := [], vars := [], ast_lines := [], external_ast_lines := [],
    sorted_sections := [] }

/-- A section directive of the `c8_model2` model. -/
def d_sec : Directive := ⟨5, "section", []⟩

/-- The same model with one `"section"` entry in the directives dict. -/
def c8_model2 : Cleast :=
  { c8_model with directives := [("section", [d_sec])], sorted_sections := [d_sec] }

/-- A position trace placing a reference under a rule head, inside the
condition of a conditional literal. -/
def trace_w : List TraceElem :=
  [TraceElem.str "head", TraceElem.ty ASTType.ConditionalLiteral, TraceElem.str "condition"]

/-- The decimal character rendering of a natural number, used to reason
about `Nat.repr` (which `Constraint` identifiers interpolate). -/
def dec_chars (n : Nat) : List Char :=
  if n = 0 then ['0'] else ((Nat.digits 10 n).map Nat.digitChar).reverse

theorem dec_chars_step (n : Nat) (h0 : n / 10 ≠ 0) :
    dec_chars n = dec_chars (n / 10) ++ [Nat.digitChar (n % 10)] := by
  have hnz : n ≠ 0 := by intro hz; rw [hz] at h0; simp at h0
  rw [dec_chars, if_neg hnz, dec_chars, if_neg h0,
    Nat.digits_def' (b := 10) (by norm_num) (Nat.pos_of_ne_zero hnz)]
  simp

theorem toDigitsCore_eq_dec_chars (f : Nat) : ∀ (n : Nat) (acc : List Char), n < f →
    Nat.toDigitsCore 10 f n acc = dec_chars n ++ acc := by
  induction f with
  | zero => intro n acc h; omega
  | succ f ih =>
    intro n acc h
    simp only [Nat.toDigitsCore]
    by_cases h0 : n / 10 = 0
    · rw [if_pos h0]
      by_cases hz : n = 0
      · subst hz
        rw [dec_chars, if_pos rfl]
        simp [Nat.digitChar]
      · rw [dec_chars, if_neg hz, Nat.digits_def' (b := 10) (by norm_num) (Nat.pos_of_ne_zero hz),
          h0]
        simp
    · rw [if_neg h0]
      have hnz : n ≠ 0 := by
        intro hz; rw [hz] at h0; simp at h0
      have hlt : n / 10 < f := by
        have h1 : n / 10 < n := Nat.div_lt_self (Nat.pos_of_ne_zero hnz) (by norm_num)
        omega
      rw [ih (n / 10) (Nat.digitChar (n % 10) :: acc) hlt, dec_chars_step n h0]
      simp

theorem repr_eq_dec_chars (n : Nat) : Nat.repr n = String.mk (dec_chars n) := by
  show (Nat.toDigits 10 n).asString = _
  unfold Nat.toDigits
  rw [toDigitsCore_eq_dec_chars (n + 1) n [] (Nat.lt_succ_self n)]
  simp [List.asString]

theorem digitChar_inj_lt : ∀ a < 10, ∀ b < 10, Nat.digitChar a = Nat.digitChar b → a = b := by
  decide

theorem digitChar_ne_zero_char : ∀ d < 10, d ≠ 0 → Nat.digitChar d ≠ '0' := by
  decide

theorem map_digitChar_inj : ∀ l1 l2 : List Nat, (∀ x ∈ l1, x < 10) → (∀ x ∈ l2, x < 10) →
    l1.map Nat.digitChar = l2.map Nat.digitChar → l1 = l2 := by
  intro l1
  induction l1 with
  | nil =>
    intro l2 _ _ heq
    cases l2 with
    | nil => rfl
    | cons b m => simp at heq
  | cons a l ih =>
    intro l2 h1 h2 heq
    cases l2 with
    | nil => simp at heq
    | cons b m =>
      simp only [List.map_cons, List.cons.injEq] at heq
      have ha : a = b :=
        digitChar_inj_lt a (h1 a (List.mem_cons_self a l)) b (h2 b (List.mem_cons_self b m)) heq.1
      have hl : l = m :=
        ih m (fun x hx => h1 x (List.mem_cons_of_mem a hx))
          (fun x hx => h2 x (List.mem_cons_of_mem b hx)) heq.2
      rw [ha, hl]

theorem dec_chars_ne_singleton_zero (n : Nat) (hn : n ≠ 0) : dec_chars n ≠ ['0'] := by
  rw [dec_chars, if_neg hn]
  intro hcon
  have h2 : (Nat.digits 10 n).map Nat.digitChar = ['0'] := by
    have := congrArg List.reverse hcon
    simpa using this
  cases hd : Nat.digits 10 n with
  | nil => rw [hd] at h2; simp at h2
  | cons d rest =>
    rw [hd] at h2
    simp only [List.map_cons, List.cons.injEq] at h2
    have hrest : rest = [] := List.map_eq_nil_iff.mp h2.2
    have hd10 : d < 10 := Nat.digits_lt_base (by norm_num) (hd ▸ List.mem_cons_self d rest)
    have hnd : n = d := by
      have h4 := congrArg (Nat.ofDigits 10) hd
      rw [Nat.ofDigits_digits, hrest, Nat.ofDigits_singleton] at h4
      exact h4
    exact digitChar_ne_zero_char d hd10 (by rw [← hnd]; exact hn) h2.1

theorem dec_chars_inj (m n : Nat) (h : dec_chars m = dec_chars n) : m = n := by
  by_cases hm : m = 0 <;> by_cases hn : n = 0
  · rw [hm, hn]
  · exfalso
    rw [hm] at h
    refine dec_chars_ne_singleton_zero n hn ?_
    rw [← h, dec_chars]
    simp
  · exfalso
    rw [hn] at h
    refine dec_chars_ne_singleton_zero m hm ?_
    rw [h, dec_chars]
    simp
  · rw [dec_chars, if_neg hm, dec_chars, if_neg hn] at h
    have h2 := List.reverse_injective h
    have h3 := map_digitChar_inj _ _
      (fun x hx => Nat.digits_lt_base (by norm_num) hx)
      (fun x hx => Nat.digits_lt_base (by norm_num) hx) h2
    have h4 := congrArg (Nat.ofDigits 10) h3
    rwa [Nat.ofDigits_digits, Nat.ofDigits_digits] at h4

theorem nat_repr_inj {m n : Nat} (h : Nat.repr m = Nat.repr n) : m = n := by
  rw [repr_eq_dec_chars, repr_eq_dec_chars] at h
  injection h with h'
  exact dec_chars_inj m n h'

theorem constraint_ident_inj {a b : Nat}
    (h : "Constraint#" ++ Nat.repr a = "Constraint#" ++ Nat.repr b) : a = b := by
  apply nat_repr_inj
  have h2 := congrArg String.data h
  simp only [String.data_append] at h2
  exact String.ext (List.append_cancel_left h2)

theorem get_sections_loop_spec (line : Int) (l : List Directive) :
    ∀ cur : Option Directive,
    List.Sorted (fun a b : Directive => a.line_number ≤ b.line_number) l →
    (∀ c, cur = some c → c.line_number < line) →
    ((∀ s, get_sections_loop l line cur = some s →
        (s ∈ l ∨ cur = some s) ∧ s.line_number < line ∧
        ∀ t ∈ l, t.line_number < line → t.line_number ≤ s.line_number)
  ∧ (get_sections_loop l line cur = none →
        cur = none ∧ ∀ t ∈ l, ¬ t.line_number < line)) := by
  induction l with
  | nil =>
    intro cur _ hcur
    refine ⟨?_, ?_⟩
    · intro s hres
      rw [get_sections_loop] at hres
      exact ⟨Or.inr hres, hcur s hres, by simp⟩
    · intro hres
      rw [get_sections_loop] at hres
      exact ⟨hres, by simp⟩
  | cons d rest ih =>
    intro cur hs hcur
    have hs' : List.Sorted (fun a b : Directive => a.line_number ≤ b.line_number) rest :=
      (List.sorted_cons.mp hs).2
    have hd_all : ∀ t ∈ rest, d.line_number ≤ t.line_number := (List.sorted_cons.mp hs).1
    by_cases hlt : d.line_number < line
    · have hrec := ih (some d) hs' (by intro c hc; cases hc; exact hlt)
      rw [get_sections_loop, if_pos hlt]
      refine ⟨?_, ?_⟩
      · intro s hres
        obtain ⟨hmem, hsl, hmax⟩ := hrec.1 s hres
        refine ⟨?_, hsl, ?_⟩
        · rcases hmem with hm | hm
          · exact Or.inl (List.mem_cons_of_mem d hm)
          · cases hm; exact Or.inl (List.mem_cons_self d rest)
        · intro t ht htl
          rcases List.mem_cons.mp ht with rfl | hm
          · rcases hmem with hm' | hm'
            · exact hd_all s hm'
            · cases hm'; exact le_refl _
          · exact hmax t hm htl
      · intro hres
        exact absurd (hrec.2 hres).1 (by simp)
    · rw [get_sections_loop, if_neg hlt]
      refine ⟨?_, ?_⟩
      · intro s hres
        refine ⟨Or.inr hres, hcur s hres, ?_⟩
        intro t ht htl
        rcases List.mem_cons.mp ht with rfl | hm
        · exact absurd htl hlt
        · exact absurd htl (by have := hd_all t hm; omega)
      · intro hres
        refine ⟨hres, ?_⟩
        intro t ht
        rcases List.mem_cons.mp ht with rfl | hm
        · exact hlt
        · have := hd_all t hm; omega

theorem factory_cnt (cnt : Nat) (f : FactoryCall) (o : Option ASTLine) (cnt' : Nat)
    (h : ASTLine.factory cnt f.ast f.define f.dependencies f.sec f.comments f.src_dir
      = (o, cnt')) :
    (cnt' = cnt ∧ ∀ a, o = some a → a.type ≠ ASTLineType.Constraint)
  ∨ (cnt' = cnt + 1 ∧ ∃ a, o = some a ∧ a.type = ASTLineType.Constraint ∧ a.id = some cnt
      ∧ a.identifier = "Constraint#" ++ Nat.repr cnt) := by
  obtain ⟨ast, define, dependencies, sec, cms, src_dir⟩ := f
  obtain ⟨ty, loc, sb, nm, ar, tm, al, ch⟩ := ast
  cases ty <;> rcases define with _ | ⟨d, ds⟩ <;> rcases dependencies with _ | ⟨e, es⟩ <;>
    simp only [ASTLine.factory, AST.ast_type, mk_rule_line, mk_fact_line, mk_constraint_line,
      mk_definition_line, mk_input_line, mk_output_line, mk_line, AST.location,
      reduceCtorEq, if_true, if_false, Prod.mk.injEq, reduceIte,
      or_self, or_false, false_or, true_or, or_true] at h
  all_goals
    obtain ⟨hst, hcnt⟩ := h
    subst hst
    subst hcnt
    first
    | (left; exact ⟨rfl, fun a ha => Option.noConfusion ha⟩)
    | (left; refine ⟨rfl, fun a ha => ?_⟩; injection ha with ha; subst ha; simp)
    | (right; exact ⟨rfl, _, rfl, rfl, rfl, rfl⟩)

theorem factory_run_constraints (calls : List FactoryCall) : ∀ c0 : Nat,
    ∃ k, (constraints_of (factory_run c0 calls).1).map (fun a => (a.id, a.identifier))
      = (List.range' c0 k).map (fun i => ((some i : Option Nat), "Constraint#" ++ Nat.repr i)) := by
  induction calls with
  | nil => intro c0; exact ⟨0, rfl⟩
  | cons f rest ih =>
    intro c0
    rcases hfac : ASTLine.factory c0 f.ast f.define f.dependencies f.sec f.comments f.src_dir
      with ⟨o, cnt'⟩
    rcases factory_cnt c0 f o cnt' hfac with ⟨hc, h1⟩ | ⟨hc, a, ho, hty, hid, hident⟩
    · rw [hc] at hfac
      obtain ⟨k, hk⟩ := ih c0
      refine ⟨k, ?_⟩
      simp only [factory_run, hfac]
      cases o with
      | none =>
        simp only [constraints_of, List.filterMap_cons] at hk ⊢
        exact hk
      | some a =>
        have hna := h1 a rfl
        simp only [constraints_of, List.filterMap_cons, List.filter_cons] at hk ⊢
        rw [if_neg (by simpa using hna)]
        exact hk
    · rw [hc] at hfac
      subst ho
      obtain ⟨k, hk⟩ := ih (c0 + 1)
      refine ⟨k + 1, ?_⟩
      simp only [factory_run, hfac]
      simp only [constraints_of, List.filterMap_cons, List.filter_cons] at hk ⊢
      rw [if_pos (by simpa using hty)]
      rw [List.range'_succ]
      simp only [List.map_cons, hid, hident]
      rw [← hk]

/-- C1: the spec claims that a reference whose position trace contains
neither a `"head"` nor a `"body"` marker is classified into the defines
set.  The code disagrees: because line 128 of astline.py reads
`elif "body":` — a truthiness test on the constant string, which is always
true — the `else: sym.add(...)` fallback is unreachable, and such a
reference is added to the *dependencies* set.  Evaluated here on a
`SymbolicAtom` reached with trace `[Rule]` (no markers): the walk returns
defines `[]` and dependencies `[placeholder_p]`. -/
theorem c1_no_marker_reference_goes_to_dependencies :
    TraceElem.str "head" ∉ [TraceElem.ty ASTType.Rule]
  ∧ TraceElem.str "body" ∉ [TraceElem.ty ASTType.Rule]
  ∧ deep_search_sym_dep [] atom_p [] [] [TraceElem.ty ASTType.Rule] = ([], [placeholder_p]) :=
  ⟨by decide, by decide, rfl⟩

/-- C2: a reference reached with a trace containing a `"head"` marker
together with a `ConditionalLiteral` marker and a `"condition"` marker is
classified into the dependencies set and the defines set is left
unchanged, even though the reference sits syntactically inside the rule
head (astline.py lines 118-127). -/
theorem c2_head_condition_reference_is_dependency (sd : SymbolDict) (loc : Location)
    (st : SymbolTerm) (nm : String) (ar : Int) (tm : Option (String × Nat)) (al : Nat)
    (ch : ChildList) (sym dep : List Symbol') (trace : List TraceElem)
    (hhead : TraceElem.str "head" ∈ trace)
    (hclit : TraceElem.ty ASTType.ConditionalLiteral ∈ trace)
    (hcond : TraceElem.str "condition" ∈ trace) :
    deep_search_sym_dep sd (AST.mk ASTType.SymbolicAtom loc (some st) nm ar tm al ch) sym dep trace
      = (sym, py_set_add dep (get_symbol sd st)) := by
  rw [deep_search_sym_dep]
  rw [if_pos rfl]
  rw [if_pos (List.mem_append_left _ hhead)]
  rw [if_pos ⟨List.mem_append_left _ hhead, List.mem_append_left _ hclit,
    List.mem_append_left _ hcond⟩]

/-- C2 witness: the theorem applied to a concrete atom under the trace
`["head", ConditionalLiteral, "condition"]`. -/
theorem c2_head_condition_reference_is_dependency_witness :
    TraceElem.str "head" ∈ trace_w
  ∧ TraceElem.ty ASTType.ConditionalLiteral ∈ trace_w
  ∧ TraceElem.str "condition" ∈ trace_w
  ∧ deep_search_sym_dep [] (AST.mk ASTType.SymbolicAtom loc_p (some st_p) "" 0 none 0
        ChildList.nil) [] [] trace_w
      = ([], py_set_add [] (get_symbol [] st_p)) :=
  ⟨by decide, by decide, by decide,
   c2_head_condition_reference_is_dependency [] loc_p st_p "" 0 none 0 ChildList.nil [] []
     trace_w (by decide) (by decide) (by decide)⟩

/-- C3: for every non-empty node list, `Cleast` construction fails with
`AttributeError` before producing any statement: the loop of
`build_ast_lines` evaluates `cleast.get_section(ast)` (astline.py line
152), and the `Cleast` class defines no attribute `get_section` (only
`get_sections`, cleast.py line 107). -/
theorem c3_nonempty_init_raises_attribute_error (ast_list : List AST)
    (h : ast_list ≠ []) (file : List String) (filename src_dir : String)
    (directives : DirectiveDict) (comments : List Comment) (symbols : List Symbol')
    (vars : List Variable) :
    "get_section" ∉ cleast_class_attrs
  ∧ Cleast.init ast_list file filename src_dir directives comments symbols vars
      = .error (PyError.attributeError "get_section") := by
  cases ast_list with
  | nil => exact absurd rfl h
  | cons a rest => exact ⟨by decide, rfl⟩

/-- C3 witness: the theorem applied to the one-node program `[fact_ast]`. -/
theorem c3_nonempty_init_raises_attribute_error_witness :
    ([fact_ast] ≠ [])
  ∧ ("get_section" ∉ cleast_class_attrs
      ∧ Cleast.init [fact_ast] [] "src/a.lp" "src" [] [] [canonical_p] []
          = .error (PyError.attributeError "get_section")) :=
  ⟨List.cons_ne_nil fact_ast [],
   c3_nonempty_init_raises_attribute_error [fact_ast] (List.cons_ne_nil fact_ast [])
     [] "src/a.lp" "src" [] [] [canonical_p] []⟩

/-- C4: every statement the factory produces satisfies the kind/set
invariant: a `Fact` has a non-empty define set and an empty dependency
set, a `Constraint` an empty define set and a non-empty dependency set,
and a `Rule` both non-empty (astline.py lines 64-73). -/
theorem c4_factory_kind_set_invariant (cnt : Nat) (ast : AST)
    (define dependencies : List Symbol') (sec : Option Directive)
    (cms : Option (List Comment)) (src_dir : String) (st : ASTLine) (cnt' : Nat)
    (h : ASTLine.factory cnt ast define dependencies sec cms src_dir = (some st, cnt')) :
    (st.type = ASTLineType.Fact → st.define ≠ [] ∧ st.dependencies = [])
  ∧ (st.type = ASTLineType.Constraint → st.define = [] ∧ st.dependencies ≠ [])
  ∧ (st.type = ASTLineType.Rule → st.define ≠ [] ∧ st.dependencies ≠ []) := by
  obtain ⟨ty, loc, sb, nm, ar, tm, al, ch⟩ := ast
  cases ty <;> rcases define with _ | ⟨d, ds⟩ <;> rcases dependencies with _ | ⟨e, es⟩ <;>
    simp only [ASTLine.factory, AST.ast_type, mk_rule_line, mk_fact_line, mk_constraint_line,
      mk_definition_line, mk_input_line, mk_output_line, mk_line, AST.location,
      reduceCtorEq, if_true, if_false, Prod.mk.injEq, Option.some.injEq, reduceIte,
      or_self, or_false, false_or, true_or, or_true] at h
  all_goals
    obtain ⟨hst, hcnt⟩ := h
    first
    | exact hst.elim
    | (subst hst; simp)

/-- C4 witness: the theorem applied to the factory call that builds the
`Fact` statement `fact_line_ex` from `fact_ast`. -/
theorem c4_factory_kind_set_invariant_witness :
    (fact_line_ex.type = ASTLineType.Fact
      → fact_line_ex.define ≠ [] ∧ fact_line_ex.dependencies = [])
  ∧ (fact_line_ex.type = ASTLineType.Constraint
      → fact_line_ex.define = [] ∧ fact_line_ex.dependencies ≠ [])
  ∧ (fact_line_ex.type = ASTLineType.Rule
      → fact_line_ex.define ≠ [] ∧ fact_line_ex.dependencies ≠ []) :=
  c4_factory_kind_set_invariant 0 fact_ast [canonical_p] [] none none "src"
    fact_line_ex 0 rfl

/-- C5: the spec claims a reference whose key matches an extracted symbol
resolves to the canonical reference from the symbol index during the
statement-building traversal.  The code disagrees: `Cleast.__init__` runs
`ASTLine.build_ast_lines` (cleast.py line 52) while `self.symbol_dict` is
still the empty dict assigned at line 46 — the dict is populated only
afterwards, at lines 56-63, although `get_symbol`'s own docstring promises
"the Symbol object already computed".  So during the traversal every
reference, matching key or not, resolves to the detached placeholder:
here `p` has a canonical entry under key `("p", 1, 1)` in the index built
from the extracted symbols, yet the walk over `fact_ast` stores the
signatureless placeholder, which differs from the canonical reference. -/
theorem c5_build_time_resolution_returns_placeholder :
    dict_find (build_symbol_dict [canonical_p]) ("p", 1, 1) = some canonical_p
  ∧ get_symbol symbol_dict_at_build st_p = placeholder_p
  ∧ deep_search_sym_dep symbol_dict_at_build fact_ast [] [] [] = ([placeholder_p], [])
  ∧ placeholder_p.signature = none
  ∧ placeholder_p ≠ canonical_p :=
  ⟨rfl, rfl, rfl, rfl, by decide⟩

/-- C6: `Constraint` identifiers come from the process-wide class counter
(astline.py lines 175-185), threaded here through an arbitrary sequence of
factory calls starting from the initial value 0: the first constraint
built is `"Constraint#0"`, the identifiers are pairwise distinct, and the
stored counter values are exactly `0, 1, 2, ...` in construction order
(so they are strictly increasing and never reset, across all calls of the
run). -/
theorem c6_constraint_identifier_counter (calls : List FactoryCall)
    (h : constraints_of (factory_run 0 calls).1 ≠ []) :
    ((constraints_of (factory_run 0 calls).1).head?.map ASTLine.identifier
        = some "Constraint#0")
  ∧ List.Pairwise (fun a b : ASTLine => a.identifier ≠ b.identifier)
      (constraints_of (factory_run 0 calls).1)
  ∧ ((constraints_of (factory_run 0 calls).1).map ASTLine.id
      = (List.range (constraints_of (factory_run 0 calls).1).length).map some) := by
  obtain ⟨k, hk⟩ := factory_run_constraints calls 0
  have hident : (constraints_of (factory_run 0 calls).1).map ASTLine.identifier
      = (List.range' 0 k).map (fun i => "Constraint#" ++ Nat.repr i) := by
    have := congrArg (List.map Prod.snd) hk
    simpa [List.map_map, Function.comp] using this
  have hids : (constraints_of (factory_run 0 calls).1).map ASTLine.id
      = (List.range' 0 k).map some := by
    have := congrArg (List.map Prod.fst) hk
    simpa [List.map_map, Function.comp] using this
  have hlen : (constraints_of (factory_run 0 calls).1).length = k := by
    have := congrArg List.length hids
    simpa using this
  refine ⟨?_, ?_, ?_⟩
  · cases hcs : constraints_of (factory_run 0 calls).1 with
    | nil => exact absurd hcs h
    | cons c cs =>
      rw [hcs] at hlen
      cases k with
      | zero => simp at hlen
      | succ k' =>
        rw [hcs, List.range'_succ] at hident
        simp only [List.map_cons, List.cons.injEq] at hident
        simp only [List.head?_cons, Option.map_some']
        rw [hident.1]
        decide
  · have hnodup : ((constraints_of (factory_run 0 calls).1).map ASTLine.identifier).Nodup := by
      rw [hident]
      refine List.Nodup.map ?_ (List.nodup_range' 0 k)
      intro a b hab
      exact constraint_ident_inj hab
    exact List.pairwise_map.mp hnodup
  · rw [hids, hlen, List.range_eq_range']

/-- C6 witness: the theorem applied to a run of one constraint-building
factory call from the process-start counter value 0. -/
theorem c6_constraint_identifier_counter_witness :
    ((constraints_of (factory_run 0 [c6_call]).1).head?.map ASTLine.identifier
        = some "Constraint#0")
  ∧ List.Pairwise (fun a b : ASTLine => a.identifier ≠ b.identifier)
      (constraints_of (factory_run 0 [c6_call]).1)
  ∧ ((constraints_of (factory_run 0 [c6_call]).1).map ASTLine.id
      = (List.range (constraints_of (factory_run 0 [c6_call]).1).length).map some) :=
  c6_constraint_identifier_counter [c6_call]
    (fun hh => absurd (congrArg List.length hh) (by decide))

/-- C7: on a section list sorted by line number (as `Cleast.__init__`
pre-sorts it), `get_sections` returns the section directive with the
greatest line number among those strictly below
`loc.begin.line - 1`, and `none` when no section satisfies that bound
(cleast.py lines 107-123). -/
theorem c7_get_sections_nearest_preceding (l : List Directive)
    (hs : List.Sorted (fun a b : Directive => a.line_number ≤ b.line_number) l)
    (loc : Location) :
    (∀ s, get_sections l loc = some s →
        s ∈ l ∧ s.line_number < loc.begin.line - 1 ∧
        ∀ t ∈ l, t.line_number < loc.begin.line - 1 → t.line_number ≤ s.line_number)
  ∧ (get_sections l loc = none → ∀ t ∈ l, ¬ t.line_number < loc.begin.line - 1) := by
  have hspec := get_sections_loop_spec (loc.begin.line - 1) l none hs (by intro c hc; cases hc)
  refine ⟨?_, ?_⟩
  · intro s hres
    obtain ⟨hmem, hsl, hmax⟩ := hspec.1 s hres
    rcases hmem with hm | hm
    · exact ⟨hm, hsl, hmax⟩
    · cases hm
  · intro hres
    exact (hspec.2 hres).2

/-- C7 witness: sections at lines 5 and 20; an object at line 22 gets the
line-20 directive, an object at line 3 gets none. -/
theorem c7_get_sections_nearest_preceding_witness :
    List.Sorted (fun a b : Directive => a.line_number ≤ b.line_number) [d5, d20]
  ∧ get_sections [d5, d20] loc22 = some d20
  ∧ get_sections [d5, d20] loc3 = none
  ∧ (d20 ∈ [d5, d20] ∧ d20.line_number < loc22.begin.line - 1 ∧
      ∀ t ∈ [d5, d20], t.line_number < loc22.begin.line - 1 → t.line_number ≤ d20.line_number)
  ∧ (∀ t ∈ [d5, d20], ¬ t.line_number < loc3.begin.line - 1) :=
  ⟨by decide, rfl, rfl,
   (c7_get_sections_nearest_preceding [d5, d20] (by decide) loc22).1 d20 rfl,
   (c7_get_sections_nearest_preceding [d5, d20] (by decide) loc3).2 rfl⟩

/-- C8: the spec claims the line query returns exactly the elements
beginning at `line` or `line + 1`.  The code disagrees twice (cleast.py
lines 148-157): `all_elem.extend(self.directives)` iterates the *dict*,
injecting its string keys — so any non-empty directives dict makes the
loop raise `AttributeError` on `elem.location`; and on a match the loop
runs `ret.append(ret)`, appending the accumulator to itself, so the
returned list contains self-references, never the matched elements.
Evaluated here: a model with one comment at line 3 and an empty
directives dict answers the line-3 query with a single self-reference
(not the comment); the same model with a `"section"` entry in the dict
raises `AttributeError`. -/
theorem c8_get_line_appends_accumulator_not_elements :
    Cleast.init [] [] "f.lp" "." [] [comment3] [] [] = .ok c8_model
  ∧ Cleast.get_line c8_model 3 = .ok [GetLineEntry.self_ref]
  ∧ Cleast.init [] [] "f.lp" "." [("section", [d_sec])] [comment3] [] [] = .ok c8_model2
  ∧ Cleast.get_line c8_model2 3 = .error (PyError.attributeError "location") :=
  ⟨rfl, rfl, rfl, rfl⟩

/-- C9: the spec claims a rule-shaped node with both sets empty is merely
skipped while processing continues.  The factory indeed yields no
statement for it (first conjunct), but the build never reaches the
factory: `build_ast_lines` evaluates `cleast.get_section(ast)` on every
node and the `Cleast` class has no such attribute, so the whole build
aborts with `AttributeError` on the *first* node and the remaining nodes
are never processed (second conjunct, evaluated on the two-node program
`[unclass_ast, fact_ast]`). -/
theorem c9_unclassifiable_rule_aborts_whole_build :
    ASTLine.factory 0 unclass_ast [] [] none none "src" = (none, 0)
  ∧ build_ast_lines symbol_dict_at_build [unclass_ast, fact_ast]
      = .error (PyError.attributeError "get_section") :=
  ⟨rfl, rfl⟩

/-- C10: `get_ast_lines` leaves the model unchanged (it copies
`self.ast_lines` before extending, and assigns to no attribute), and
calling it twice with the same kind and locality arguments returns the
same result (cleast.py lines 160-168). -/
theorem c10_get_ast_lines_idempotent_no_mutation (c : Cleast)
    (kind : Option ASTLineType) (only_local : Bool) :
    (Cleast.get_ast_lines c kind only_local).2 = c
  ∧ Cleast.get_ast_lines (Cleast.get_ast_lines c kind only_local).2 kind only_local
      = Cleast.get_ast_lines c kind only_local := by
  cases kind <;> exact ⟨rfl, rfl⟩
